import Mathlib

/-!
Shallow embedding of the argon attribute driven generator
(macros/src/lib.rs): attribute extraction, route table synthesis,
response schema resolution, API document assembly, and the response
enum synthesizer.
-/

namespace Argon

/-- A path type as the generator sees it: the final path segment ident
plus its angle bracketed type arguments (empty when there are none).
This mirrors the fragment of syn Type that the generator inspects:
it only ever looks at the last segment and its generic arguments. -/
inductive Ty where
  | mk (name : String) (args : List Ty)

mutual

/-- Canonical rendered text of a type, the dedup identity used by the
controller macro (quote of the type, to_string). -/
def renderTy : Ty → String
  | .mk n [] => n
  | .mk n (a :: rest) => n ++ " < " ++ renderTyArgs (a :: rest) ++ " >"

/-- Rendered form of a comma separated generic argument list. -/
def renderTyArgs : List Ty → String
  | [] => ""
  | [t] => renderTy t
  | t :: ts => renderTy t ++ " , " ++ renderTyArgs ts

end

mutual

/-- Embedding of extract_types_from_generic: for each angle bracketed
type argument of the last path segment, recurse into the argument and
then push the argument itself; the outer type is never pushed. -/
def extract_types_from_generic : Ty → List Ty
  | .mk _ args => extract_types_from_generic_list args

/-- Loop of extract_types_from_generic over the argument list. -/
def extract_types_from_generic_list : List Ty → List Ty
  | [] => []
  | t :: ts => extract_types_from_generic t ++ [t] ++ extract_types_from_generic_list ts

end

/-- One parsed key value item of a utoipa_response attribute argument
list: the known keys status, body, response, description, or an
unknown key (which the argument parser rejects). -/
inductive KVal where
  | kstatus (n : Nat)
  | kbody (t : Ty)
  | kresponse (t : Ty)
  | kdescription (s : String)
  | kunknown (key : String)

/-- Embedding of UtoipaResponseArgs: the four optional fields the
argument parser accumulates. -/
structure RespArgs where
  status : Option Nat
  body : Option Ty
  response : Option Ty
  description : Option String

/-- The token stream inside a Meta List attribute, classified by which
syn parse succeeds on it: a string literal, a key value list, a bare
type token, or anything else. -/
inductive Tokens where
  | litStr (s : String)
  | kvList (pairs : List KVal)
  | bareTy (t : Ty)
  | other

/-- An attribute on a method: its path segments and, when the meta is a
Meta List, the token stream inside the parentheses (none models Meta
Path and Meta NameValue shapes). -/
structure Attr where
  pathSegs : List String
  tokens : Option Tokens

/-- The diagnostic the argument parser produces when both body and
response appear in one utoipa_response annotation. -/
def conflictMsg : String :=
  "Cannot specify both body and response. Use body for simple types or response for IntoResponses types."

/-- One step of UtoipaResponseArgs parsing: record the value for a known
key (later occurrences overwrite, status must fit in u16), reject an
unknown key. -/
def applyKV (a : RespArgs) : KVal → Except String RespArgs
  | .kstatus n => if n ≤ 65535 then .ok { a with status := some n } else .error "status out of u16 range"
  | .kbody t => .ok { a with body := some t }
  | .kresponse t => .ok { a with response := some t }
  | .kdescription s => .ok { a with description := some s }
  | .kunknown k => .error ("Unknown argument: " ++ k)

/-- The key value loop of UtoipaResponseArgs parsing. -/
def parseKVs (a : RespArgs) : List KVal → Except String RespArgs
  | [] => .ok a
  | kv :: rest =>
    match applyKV a kv with
    | .ok a2 => parseKVs a2 rest
    | .error e => .error e

/-- Embedding of the UtoipaResponseArgs parser: only a key value token
stream parses; after the loop, supplying both body and response is
rejected with the conflict diagnostic. -/
def parseUtoipaArgs : Tokens → Except String RespArgs
  | .kvList pairs =>
    match parseKVs { status := none, body := none, response := none, description := none } pairs with
    | .error e => .error e
    | .ok args =>
      if args.body.isSome && args.response.isSome then .error conflictMsg
      else .ok args
  | .litStr _ => .error "expected key value arguments"
  | .bareTy _ => .error "expected key value arguments"
  | .other => .error "expected key value arguments"

/-- Parsing the token stream as a single string literal (the shape a
route annotation argument must have). -/
def parseLitStr : Tokens → Option String
  | .litStr s => some s
  | _ => none

/-- Parsing the token stream as a single bare type. -/
def parseType : Tokens → Option Ty
  | .bareTy t => some t
  | _ => none

/-- ASCII lowercasing of an identifier, the to_lowercase call applied
to the last path segment before the verb test. -/
def toLowerString (s : String) : String :=
  String.mk (s.data.map Char.toLower)

/-- The five recognized route verbs, lowercased. -/
def routeVerbs : List String := ["get", "post", "put", "delete", "patch"]

/-- Embedding of extract_route_attr: scan the attribute list in order;
the first attribute whose last path segment lowercases to a route verb,
whose meta is a list, and whose tokens parse as a string literal yields
the (verb, path) pair; every other attribute is skipped silently. -/
def extract_route_attr : List Attr → Option (String × String)
  | [] => none
  | a :: rest =>
    match a.pathSegs.getLast? with
    | none => extract_route_attr rest
    | some seg =>
      if toLowerString seg ∈ routeVerbs then
        match a.tokens with
        | some tk =>
          match parseLitStr tk with
          | some p => some (toLowerString seg, p)
          | none => extract_route_attr rest
        | none => extract_route_attr rest
      else extract_route_attr rest

/-- One response token pushed into the utoipa path responses clause:
either a bare IntoResponses type, or an explicit (status, description,
body) triple. -/
inductive RespTok where
  | intoResponses (t : Ty)
  | triple (status : Nat) (description : String) (body : Ty)

/-- Embedding of extract_utoipa_response_attrs: for each attribute whose
last segment is utoipa_response and whose meta is a list, first try the
key value parse (response wins over body; body fills in status 200 and
description Success defaults), otherwise try the bare type parse
(status 200, description Success); attributes that fit neither shape
are skipped silently. -/
def extract_utoipa_response_attrs : List Attr → List RespTok
  | [] => []
  | a :: rest =>
    let tail := extract_utoipa_response_attrs rest
    match a.pathSegs.getLast? with
    | none => tail
    | some seg =>
      if seg = "utoipa_response" then
        match a.tokens with
        | none => tail
        | some tk =>
          match parseUtoipaArgs tk with
          | .ok args =>
            match args.response with
            | some rt => .intoResponses rt :: tail
            | none =>
              match args.body with
              | some bt =>
                .triple (args.status.getD 200) (args.description.getD "Success") bt :: tail
              | none =>
                match parseType tk with
                | some t => .triple 200 "Success" t :: tail
                | none => tail
          | .error _ =>
            match parseType tk with
            | some t => .triple 200 "Success" t :: tail
            | none => tail
      else tail

/-- Embedding of extract_response_schema_types: for each utoipa_response
attribute that parses as key value arguments, push the body type when
present and the recursively unwrapped generic arguments of the response
type when present (never the response type itself); for a bare type
attribute push the type; everything else contributes nothing. -/
def extract_response_schema_types : List Attr → List Ty
  | [] => []
  | a :: rest =>
    let tail := extract_response_schema_types rest
    match a.pathSegs.getLast? with
    | none => tail
    | some seg =>
      if seg = "utoipa_response" then
        match a.tokens with
        | none => tail
        | some tk =>
          match parseUtoipaArgs tk with
          | .ok args =>
            (match args.body with
             | some bt => [bt]
             | none => []) ++
            (match args.response with
             | some rt => extract_types_from_generic rt
             | none => []) ++ tail
          | .error _ =>
            match parseType tk with
            | some t => t :: tail
            | none => tail
      else tail

/-- A method of the impl block: its name, whether its signature has a
self receiver, and its attribute list in declaration order. -/
structure Method where
  name : String
  hasSelf : Bool
  attrs : List Attr

/-- An item of the impl block: a method, or any other impl item (which
the generator ignores). -/
inductive ImplItem where
  | fn (m : Method)
  | nonFn

/-- The controller input: the struct name (last segment of the self
type path) and the ordered impl items. -/
structure ImplBlock where
  structName : String
  items : List ImplItem

/-- Embedding of the handler_call choice in the controller macro: both
the receiver branch and the associated function branch produce the
qualified name StructName::method. -/
def handler_call (structName fnName : String) (hasSelf : Bool) : String :=
  if hasSelf then structName ++ "::" ++ fnName
  else structName ++ "::" ++ fnName

/-- One synthesized route registration: verb, path template and handler
reference. -/
structure RouteReg where
  verb : String
  path : String
  handler : String

/-- Embedding of the route registration loop of the controller macro:
one entry per method with a recognized route annotation, in declaration
order. -/
def route_registrations (b : ImplBlock) : List RouteReg :=
  b.items.foldr
    (fun it acc =>
      match it with
      | .fn m =>
        match extract_route_attr m.attrs with
        | some vp => ⟨vp.1, vp.2, handler_call b.structName m.name m.hasSelf⟩ :: acc
        | none => acc
      | .nonFn => acc) []

/-- The ordered methods of a block for which the attribute extractor
returns a route pair, each with its verb and path. -/
def routedMethods (b : ImplBlock) : List (Method × String × String) :=
  b.items.foldr
    (fun it acc =>
      match it with
      | .fn m =>
        match extract_route_attr m.attrs with
        | some vp => (m, vp.1, vp.2) :: acc
        | none => acc
      | .nonFn => acc) []

/-- Leading slash removal applied to the path before it enters the
utoipa path attribute. -/
def stripLeadingSlash (p : String) : String :=
  match p.data with
  | '/' :: rest => String.mk rest
  | _ => p

/-- One documentation only wrapper produced per routed method: its
generated name, verb, slash stripped path and response tokens. -/
structure PathDoc where
  wrapperName : String
  verb : String
  pathTemplate : String
  responses : List RespTok

/-- Embedding of the openapi wrapper generation loop: one wrapper per
routed method carrying the extracted response tokens. -/
def openapi_path_functions (b : ImplBlock) : List PathDoc :=
  b.items.foldr
    (fun it acc =>
      match it with
      | .fn m =>
        match extract_route_attr m.attrs with
        | some vp =>
          ⟨"__utoipa_path_" ++ m.name, vp.1, stripLeadingSlash vp.2,
            extract_utoipa_response_attrs m.attrs⟩ :: acc
        | none => acc
      | .nonFn => acc) []

/-- Embedding of the second controller loop collecting the wrapper
names for the openapi paths clause. -/
def openapi_path_names (b : ImplBlock) : List String :=
  b.items.foldr
    (fun it acc =>
      match it with
      | .fn m =>
        if (extract_route_attr m.attrs).isSome then ("__utoipa_path_" ++ m.name) :: acc
        else acc
      | .nonFn => acc) []

/-- Embedding of the schema type collection of the second controller
loop: the concatenated schema types of every routed method, in
declaration order. -/
def controller_schema_types (b : ImplBlock) : List Ty :=
  b.items.foldr
    (fun it acc =>
      match it with
      | .fn m =>
        if (extract_route_attr m.attrs).isSome then extract_response_schema_types m.attrs ++ acc
        else acc
      | .nonFn => acc) []

/-- Embedding of the dedup loop of the controller macro: walk the
schema list keeping a set of already seen rendered identities and keep
only first occurrences. -/
def dedupGo (seen : List String) : List Ty → List Ty
  | [] => []
  | t :: ts =>
    if renderTy t ∈ seen then dedupGo seen ts
    else t :: dedupGo (renderTy t :: seen) ts

/-- The deduplicated schema list of a controller block. -/
def unique_schemas (b : ImplBlock) : List Ty :=
  dedupGo [] (controller_schema_types b)

/-- Specification style first occurrence deduplication: keep the head
and drop every later element with the same rendered identity. -/
def dedupFirst : List Ty → List Ty
  | [] => []
  | t :: ts =>
    t :: dedupFirst (ts.filter (fun u => decide (renderTy u ≠ renderTy t)))
termination_by l => l.length
decreasing_by
  simp only [List.length_cons]
  exact Nat.lt_succ_of_le (List.length_filter_le _ _)

/-- The assembled documentation object: the wrapper identities and,
only when the deduplicated schema set is nonempty, the components
schemas section. -/
structure ApiDoc where
  paths : List String
  componentSchemas : Option (List Ty)

/-- Embedding of the openapi attribute assembly: the components section
is included exactly when the deduplicated schema list is nonempty. -/
def openapi_doc (b : ImplBlock) : ApiDoc :=
  { paths := openapi_path_names b,
    componentSchemas :=
      if (unique_schemas b).isEmpty then none else some (unique_schemas b) }

/-- Everything one controller expansion emits: route registrations,
wrapper docs, and the documentation object. -/
structure ControllerOutput where
  routes : List RouteReg
  pathDocs : List PathDoc
  doc : ApiDoc

/-- Embedding of the controller macro as a whole (for a block whose
self type is a path type, the only case that reaches generation). -/
def controller (b : ImplBlock) : ControllerOutput :=
  { routes := route_registrations b,
    pathDocs := openapi_path_functions b,
    doc := openapi_doc b }

/-- Embedding of extract_status_code_constant: the last segment of the
status code path, or UNKNOWN when the path is empty. -/
def extract_status_code_constant (segs : List String) : String :=
  match segs.getLast? with
  | some s => s
  | none => "UNKNOWN"

/-- Splitting a character sequence on underscores, the split call of
the mnemonic transforms: adjacent or leading separators give empty
words, and the empty input gives one empty word. -/
def splitUnderscore : List Char → List (List Char)
  | [] => [[]]
  | c :: cs =>
    if c = '_' then [] :: splitUnderscore cs
    else
      match splitUnderscore cs with
      | [] => [[c]]
      | w :: ws => (c :: w) :: ws

/-- Capitalization of one word: first character uppercased, the rest
lowercased (the empty word maps to the empty word). -/
def capitalizeWord : List Char → List Char
  | [] => []
  | c :: cs => c.toUpper :: cs.map Char.toLower

/-- Concatenation of a word list with nothing between the words. -/
def joinWords : List (List Char) → List Char
  | [] => []
  | w :: ws => w ++ joinWords ws

/-- Concatenation of a word list with one space between the words. -/
def joinWordsSpace : List (List Char) → List Char
  | [] => []
  | [w] => w
  | w :: ws => w ++ ' ' :: joinWordsSpace ws

/-- Embedding of status_code_to_variant_name: split on underscore,
capitalize each word, concatenate. -/
def status_code_to_variant_name (s : String) : String :=
  String.mk (joinWords ((splitUnderscore s.data).map capitalizeWord))

/-- Embedding of status_code_to_description: split on underscore,
capitalize each word, join the words with single spaces. -/
def status_code_to_description (s : String) : String :=
  String.mk (joinWordsSpace ((splitUnderscore s.data).map capitalizeWord))

/-- Embedding of status_code_constant_to_number: the fixed thirteen
entry mnemonic table; every other mnemonic defaults to 200. -/
def status_code_constant_to_number (s : String) : Nat :=
  match s with
  | "OK" => 200
  | "CREATED" => 201
  | "NO_CONTENT" => 204
  | "BAD_REQUEST" => 400
  | "UNAUTHORIZED" => 401
  | "FORBIDDEN" => 403
  | "NOT_FOUND" => 404
  | "METHOD_NOT_ALLOWED" => 405
  | "CONFLICT" => 409
  | "UNPROCESSABLE_ENTITY" => 422
  | "INTERNAL_SERVER_ERROR" => 500
  | "BAD_GATEWAY" => 502
  | "SERVICE_UNAVAILABLE" => 503
  | _ => 200

/-- One entry of the response macro literal list: the status code path,
the carried type, and the optional description literal. -/
structure ResponseEntry where
  status_code : List String
  response_type : Ty
  description : Option String

/-- One synthesized enum variant: name, numeric status, description and
carried type. -/
structure Variant where
  name : String
  status : Nat
  description : String
  carried : Ty

/-- The outcome of the response macro: a diagnostic, or the synthesized
enum variants. -/
inductive RespMacroResult where
  | error (msg : String)
  | enumArtifact (variants : List Variant)

/-- The per entry variant synthesis of the response macro. -/
def mkVariant (e : ResponseEntry) : Variant :=
  { name := status_code_to_variant_name (extract_status_code_constant e.status_code),
    status := status_code_constant_to_number (extract_status_code_constant e.status_code),
    description :=
      e.description.getD (status_code_to_description (extract_status_code_constant e.status_code)),
    carried := e.response_type }

/-- Embedding of the response macro entry point: an empty entry list is
a hard error, otherwise one variant per entry in order. -/
def response (entries : List ResponseEntry) : RespMacroResult :=
  if entries.isEmpty then
    .error "response! macro requires at least one status code and type pair"
  else .enumArtifact (entries.map mkVariant)

/-- A well formed route annotation with a single segment name and a
string literal argument. -/
def mkRouteAttr (v p : String) : Attr :=
  { pathSegs := [v], tokens := some (.litStr p) }

/-- A utoipa_response annotation of the explicit response form. -/
def respAttr (t : Ty) : Attr :=
  { pathSegs := ["utoipa_response"], tokens := some (.kvList [.kresponse t]) }

/-- A type with no generic arguments. -/
def atom (n : String) : Ty := .mk n []

/-- Claim C3: the mnemonic transforms of the response enum synthesizer
evaluated at NOT_FOUND, INTERNAL_SERVER_ERROR and TEAPOT. The variant
names and numeric statuses agree with the claim, but the generated
descriptions capitalize every word: NOT_FOUND yields the description
Not Found (capital F) and INTERNAL_SERVER_ERROR yields Internal Server
Error, while the claim and the source doc comment of
status_code_to_description announce Not found and Internal server
error. -/
theorem claim_C3 :
    status_code_to_variant_name "NOT_FOUND" = "NotFound" ∧
    status_code_to_description "NOT_FOUND" = "Not Found" ∧
    status_code_constant_to_number "NOT_FOUND" = 404 ∧
    status_code_to_variant_name "INTERNAL_SERVER_ERROR" = "InternalServerError" ∧
    status_code_to_description "INTERNAL_SERVER_ERROR" = "Internal Server Error" ∧
    status_code_constant_to_number "INTERNAL_SERVER_ERROR" = 500 ∧
    status_code_constant_to_number "TEAPOT" = 200 :=
  ⟨rfl, rfl, rfl, rfl, rfl, rfl, rfl⟩

/-- Claim C8: handing the response enum synthesizer an empty literal
list is a hard generation time error: the result is the diagnostic and
never an enum artifact. -/
theorem claim_C8 :
    response [] = .error "response! macro requires at least one status code and type pair" :=
  rfl

/-- Claim C10: a response annotation of the form response = T with T a
plain path type without generic arguments contributes no schema
reference at all, while T is still emitted into the response list of
the documentation for that method; a whole controller block whose only
response annotation has this shape ends with an empty schema set. -/
theorem claim_C10 (n : String) (rest : List Attr) (S nm : String) :
    extract_response_schema_types (respAttr (atom n) :: rest) = extract_response_schema_types rest ∧
    extract_utoipa_response_attrs (respAttr (atom n) :: rest)
      = .intoResponses (atom n) :: extract_utoipa_response_attrs rest ∧
    unique_schemas ⟨S, [.fn ⟨nm, false, [mkRouteAttr "get" "/p", respAttr (atom n)]⟩]⟩ = [] :=
  ⟨rfl, rfl, rfl⟩

/-- Claim C2, counterexample to the claimed abort: at a concrete
controller whose single method carries a route annotation and one
utoipa_response annotation supplying both body and response, the
argument parser does produce the conflict diagnostic, yet the generator
does not abort: it emits a complete route table, wrapper list and
document, with the conflicting annotation silently contributing no
response and no schema. -/
theorem claim_C2_counterexample :
    parseUtoipaArgs (Tokens.kvList [.kbody (atom "X"), .kresponse (atom "Y")])
      = .error conflictMsg ∧
    controller
        ⟨"C", [.fn ⟨"h", false,
          [mkRouteAttr "get" "/p",
           { pathSegs := ["utoipa_response"],
             tokens := some (.kvList [.kbody (atom "X"), .kresponse (atom "Y")]) }]⟩]⟩
      = ⟨[⟨"get", "/p", "C::h"⟩],
         [⟨"__utoipa_path_h", "get", "p", []⟩],
         ⟨["__utoipa_path_h"], none⟩⟩ :=
  ⟨rfl, rfl⟩

/-- Claim C2 (amended): when one utoipa_response annotation supplies
both body and response, the key value parser rejects it with the
conflict diagnostic, but the attribute extractors discard the failure
and silently skip the annotation: it contributes neither a documented
response nor a schema reference, and extraction continues with the
remaining annotations instead of aborting. -/
theorem claim_C2 (pairs : List KVal) (rest : List Attr)
    (h : parseUtoipaArgs (.kvList pairs) = .error conflictMsg) :
    extract_utoipa_response_attrs
        ({ pathSegs := ["utoipa_response"], tokens := some (.kvList pairs) } :: rest)
      = extract_utoipa_response_attrs rest ∧
    extract_response_schema_types
        ({ pathSegs := ["utoipa_response"], tokens := some (.kvList pairs) } :: rest)
      = extract_response_schema_types rest ∧
    (∀ (t u : Ty), parseUtoipaArgs (.kvList [.kbody t, .kresponse u]) = .error conflictMsg) := by
  refine ⟨?_, ?_, fun t u => rfl⟩
  · simp only [extract_utoipa_response_attrs, h]
    rfl
  · simp only [extract_response_schema_types, h]
    rfl

/-- Claim C2 witness: the amended statement applied at a concrete
conflicting annotation. -/
theorem claim_C2_witness :
    parseUtoipaArgs (.kvList [.kbody (atom "A"), .kresponse (atom "B")]) = .error conflictMsg ∧
    extract_utoipa_response_attrs
        [{ pathSegs := ["utoipa_response"],
           tokens := some (.kvList [.kbody (atom "A"), .kresponse (atom "B")]) }] = [] :=
  ⟨rfl, (claim_C2 [.kbody (atom "A"), .kresponse (atom "B")] [] rfl).1⟩

/-- Claim C5: resolution of response annotations. The bare type
shorthand resolves to status 200, description Success and the given
type; the key value form with body resolves to the given status or the
200 default and the given description or the Success default; and the
concrete annotation status 201, body User, description User created
resolves to exactly that triple. -/
theorem claim_C5 :
    (∀ (t : Ty) (rest : List Attr),
      extract_utoipa_response_attrs
          ({ pathSegs := ["utoipa_response"], tokens := some (.bareTy t) } :: rest)
        = .triple 200 "Success" t :: extract_utoipa_response_attrs rest) ∧
    (∀ (bt : Ty) (rest : List Attr),
      extract_utoipa_response_attrs
          ({ pathSegs := ["utoipa_response"], tokens := some (.kvList [.kbody bt]) } :: rest)
        = .triple 200 "Success" bt :: extract_utoipa_response_attrs rest) ∧
    (∀ (bt : Ty) (d : String) (rest : List Attr),
      extract_utoipa_response_attrs
          ({ pathSegs := ["utoipa_response"],
             tokens := some (.kvList [.kbody bt, .kdescription d]) } :: rest)
        = .triple 200 d bt :: extract_utoipa_response_attrs rest) ∧
    (∀ (n : Nat) (bt : Ty) (rest : List Attr), n ≤ 65535 →
      extract_utoipa_response_attrs
          ({ pathSegs := ["utoipa_response"],
             tokens := some (.kvList [.kstatus n, .kbody bt]) } :: rest)
        = .triple n "Success" bt :: extract_utoipa_response_attrs rest) ∧
    (∀ (n : Nat) (bt : Ty) (d : String) (rest : List Attr), n ≤ 65535 →
      extract_utoipa_response_attrs
          ({ pathSegs := ["utoipa_response"],
             tokens := some (.kvList [.kstatus n, .kbody bt, .kdescription d]) } :: rest)
        = .triple n d bt :: extract_utoipa_response_attrs rest) ∧
    extract_utoipa_response_attrs
        [{ pathSegs := ["utoipa_response"],
           tokens := some (.kvList [.kstatus 201, .kbody (atom "User"),
                                    .kdescription "User created"]) }]
      = [.triple 201 "User created" (atom "User")] := by
  refine ⟨fun t rest => rfl, fun bt rest => rfl, fun bt d rest => rfl, ?_, ?_, rfl⟩
  · intro n bt rest hn
    simp [extract_utoipa_response_attrs, parseUtoipaArgs, parseKVs, applyKV, hn]
  · intro n bt d rest hn
    simp [extract_utoipa_response_attrs, parseUtoipaArgs, parseKVs, applyKV, hn]

/-- Route extraction honors the first well formed route annotation and
never looks past it. -/
theorem extract_route_attr_first (v1 p1 : String) (h1 : toLowerString v1 ∈ routeVerbs)
    (rest : List Attr) :
    extract_route_attr (mkRouteAttr v1 p1 :: rest) = some (toLowerString v1, p1) := by
  simp only [extract_route_attr, mkRouteAttr, List.getLast?_singleton]
  rw [if_pos h1]
  rfl

/-- Claim C6: a method carrying two or more route verb annotations gets
exactly one generated route entry, built from the first annotation in
declaration order; the later annotations are ignored and no error is
raised (route extraction and registration stay total). -/
theorem claim_C6 (v1 p1 : String) (h1 : toLowerString v1 ∈ routeVerbs)
    (rest : List Attr) (S nm : String) (hs : Bool) :
    extract_route_attr (mkRouteAttr v1 p1 :: rest) = some (toLowerString v1, p1) ∧
    route_registrations ⟨S, [.fn ⟨nm, hs, mkRouteAttr v1 p1 :: rest⟩]⟩
      = [⟨toLowerString v1, p1, S ++ "::" ++ nm⟩] := by
  refine ⟨extract_route_attr_first v1 p1 h1 rest, ?_⟩
  simp only [route_registrations, List.foldr, extract_route_attr_first v1 p1 h1 rest]
  simp only [handler_call, ite_self]

/-- Claim C6 witness: a method annotated with get and then post yields
the single get entry. -/
theorem claim_C6_witness :
    toLowerString "get" ∈ routeVerbs ∧
    extract_route_attr [mkRouteAttr "get" "/a", mkRouteAttr "post" "/b"]
      = some (toLowerString "get", "/a") ∧
    route_registrations ⟨"S", [.fn ⟨"m", false, [mkRouteAttr "get" "/a", mkRouteAttr "post" "/b"]⟩]⟩
      = [⟨toLowerString "get", "/a", "S" ++ "::" ++ "m"⟩] :=
  ⟨by decide, claim_C6 "get" "/a" (by decide) [mkRouteAttr "post" "/b"] "S" "m" false⟩

/-- Claim C7: an annotation whose name matches a route verb but whose
argument is not a single string literal (either the meta carries no
token list, or its tokens do not parse as a string literal) is silently
skipped by route extraction, which continues with the remaining
annotations and raises no error. -/
theorem claim_C7 (a : Attr) (seg : String) (rest : List Attr)
    (hlast : a.pathSegs.getLast? = some seg)
    (hverb : toLowerString seg ∈ routeVerbs)
    (hshape : ∀ tk, a.tokens = some tk → parseLitStr tk = none) :
    extract_route_attr (a :: rest) = extract_route_attr rest := by
  obtain ⟨segs, tks⟩ := a
  simp only at hlast hshape
  simp only [extract_route_attr, hlast]
  rw [if_pos hverb]
  cases tks with
  | none => rfl
  | some tk => simp only [hshape tk rfl]

/-- Claim C7 witness: a get named annotation carrying a bare type token
is skipped and extraction finds the following well formed post
annotation. -/
theorem claim_C7_witness :
    ({ pathSegs := ["get"], tokens := some (.bareTy (atom "T")) } : Attr).pathSegs.getLast?
        = some "get" ∧
    toLowerString "get" ∈ routeVerbs ∧
    extract_route_attr
        [{ pathSegs := ["get"], tokens := some (.bareTy (atom "T")) }, mkRouteAttr "post" "/x"]
      = extract_route_attr [mkRouteAttr "post" "/x"] :=
  ⟨rfl, by decide,
    claim_C7 { pathSegs := ["get"], tokens := some (.bareTy (atom "T")) } "get"
      [mkRouteAttr "post" "/x"] rfl (by decide) (fun tk htk => by cases htk; rfl)⟩

/-- The synthesized route registrations of a block are exactly the
routed methods mapped to entries with the qualified handler name. -/
theorem regs_spec (S : String) (items : List ImplItem) :
    route_registrations ⟨S, items⟩
      = (routedMethods ⟨S, items⟩).map
          (fun x => ⟨x.2.1, x.2.2, S ++ "::" ++ x.1.name⟩) := by
  induction items with
  | nil => rfl
  | cons it rest ih =>
    cases it with
    | nonFn =>
      simp only [route_registrations, routedMethods, List.foldr] at ih ⊢
      exact ih
    | fn m =>
      cases h : extract_route_attr m.attrs with
      | none =>
        simp only [route_registrations, routedMethods, List.foldr, h] at ih ⊢
        exact ih
      | some vp =>
        simp only [route_registrations, routedMethods, List.foldr, h, List.map_cons] at ih ⊢
        rw [ih]
        simp [handler_call, ite_self]

/-- Claim C1: the synthesized route registration list has exactly one
entry per method carrying a recognized route annotation, in source
declaration order, each entry referring to the qualified name
StructName::method, and the handler reference does not depend on
whether the method takes an instance receiver. -/
theorem claim_C1 (b : ImplBlock) :
    route_registrations b
      = (routedMethods b).map (fun x => ⟨x.2.1, x.2.2, b.structName ++ "::" ++ x.1.name⟩) ∧
    (route_registrations b).length = (routedMethods b).length ∧
    (∀ (s f : String) (h1 h2 : Bool), handler_call s f h1 = handler_call s f h2) := by
  obtain ⟨S, items⟩ := b
  refine ⟨regs_spec S items, ?_, fun s f h1 h2 => by simp [handler_call]⟩
  rw [regs_spec S items, List.length_map]

/-- The keep first deduplication is a sublist of its input. -/
theorem dedupFirst_sublist (ts : List Ty) : List.Sublist (dedupFirst ts) ts := by
  induction ts using dedupFirst.induct with
  | case1 => simp [dedupFirst]
  | case2 t ts ih =>
    rw [dedupFirst]
    exact List.Sublist.cons₂ t (ih.trans (List.filter_sublist ts))

/-- The keep first deduplication contains no two elements with the same
rendered identity. -/
theorem dedupFirst_nodup (ts : List Ty) : ((dedupFirst ts).map renderTy).Nodup := by
  induction ts using dedupFirst.induct with
  | case1 => simp [dedupFirst]
  | case2 t ts ih =>
    rw [dedupFirst]
    simp only [List.map_cons, List.nodup_cons]
    refine ⟨?_, ih⟩
    intro hmem
    obtain ⟨u, hu, hru⟩ := List.mem_map.mp hmem
    have hu2 := (dedupFirst_sublist _).subset hu
    have hp := List.of_mem_filter hu2
    simp at hp
    exact hp hru

/-- Every rendered identity of the input survives into the keep first
deduplication. -/
theorem dedupFirst_covers (ts : List Ty) :
    ∀ t ∈ ts, renderTy t ∈ (dedupFirst ts).map renderTy := by
  induction ts using dedupFirst.induct with
  | case1 => simp
  | case2 t ts ih =>
    intro u hu
    rw [dedupFirst]
    simp only [List.map_cons, List.mem_cons]
    rcases List.mem_cons.mp hu with h | h
    · left; rw [h]
    · by_cases hr : renderTy u = renderTy t
      · left; exact hr
      · right
        exact ih u (List.mem_filter.mpr ⟨h, by simp [hr]⟩)

/-- The seen set loop of the controller macro computes the keep first
deduplication of the elements not yet seen. -/
theorem dedupGo_eq (seen : List String) (ts : List Ty) :
    dedupGo seen ts = dedupFirst (ts.filter (fun u => decide (¬ renderTy u ∈ seen))) := by
  induction ts generalizing seen with
  | nil => simp [dedupGo, dedupFirst]
  | cons t ts ih =>
    by_cases h : renderTy t ∈ seen
    · rw [dedupGo, if_pos h]
      have hfc : List.filter (fun u => decide (¬ renderTy u ∈ seen)) (t :: ts)
          = List.filter (fun u => decide (¬ renderTy u ∈ seen)) ts := by
        simp [List.filter_cons, h]
      rw [hfc]
      exact ih seen
    · rw [dedupGo, if_neg h]
      have hfc : List.filter (fun u => decide (¬ renderTy u ∈ seen)) (t :: ts)
          = t :: List.filter (fun u => decide (¬ renderTy u ∈ seen)) ts := by
        simp [List.filter_cons, h]
      rw [hfc, dedupFirst, ih (renderTy t :: seen), List.filter_filter]
      congr 1
      congr 1
      apply List.filter_congr
      intro u _
      by_cases h1 : renderTy u ∈ seen <;> by_cases h2 : renderTy u = renderTy t <;>
        simp [h1, h2]

/-- The deduplicated schema list of a block is the keep first
deduplication of its full schema type stream. -/
theorem unique_schemas_eq (b : ImplBlock) :
    unique_schemas b = dedupFirst (controller_schema_types b) := by
  rw [unique_schemas, dedupGo_eq]
  congr 1
  apply List.filter_eq_self.mpr
  intro u _
  simp

/-- Claim C9: the assembled documentation object carries a components
schemas section exactly when the deduplicated schema set is nonempty;
when present the section is the keep first deduplication of the whole
in order schema stream, so it lists every schema reference exactly
once (no duplicate rendered identities), covers every reference of the
stream, and preserves first seen order (it is a sublist of the
stream); when the set is empty the section is omitted entirely. -/
theorem claim_C9 (b : ImplBlock) :
    ((openapi_doc b).componentSchemas = none ↔ dedupFirst (controller_schema_types b) = []) ∧
    (openapi_doc b).componentSchemas
      = (if (dedupFirst (controller_schema_types b)).isEmpty then none
          else some (dedupFirst (controller_schema_types b))) ∧
    ((dedupFirst (controller_schema_types b)).map renderTy).Nodup ∧
    (∀ t ∈ controller_schema_types b,
        renderTy t ∈ (dedupFirst (controller_schema_types b)).map renderTy) ∧
    List.Sublist (dedupFirst (controller_schema_types b)) (controller_schema_types b) := by
  have he := unique_schemas_eq b
  refine ⟨?_, ?_, dedupFirst_nodup _, dedupFirst_covers _, dedupFirst_sublist _⟩
  · rw [openapi_doc]
    simp only [he]
    rcases Classical.em (dedupFirst (controller_schema_types b) = []) with hh | hh
    · simp [List.isEmpty_iff, hh]
    · simp [List.isEmpty_iff, hh]
  · rw [openapi_doc]
    simp only [he]

/-- Claim C9 witness: the document assembly rules applied at a concrete
block with one routed method carrying a body annotation, discharging
the membership hypothesis of the coverage conjunct at the concrete
schema element. -/
theorem claim_C9_witness :
    atom "Item" ∈ controller_schema_types
        ⟨"S", [.fn ⟨"h", false,
          [mkRouteAttr "get" "/p",
           { pathSegs := ["utoipa_response"], tokens := some (.kvList [.kbody (atom "Item")]) }]⟩]⟩ ∧
    renderTy (atom "Item")
      ∈ (dedupFirst (controller_schema_types
          ⟨"S", [.fn ⟨"h", false,
            [mkRouteAttr "get" "/p",
             { pathSegs := ["utoipa_response"],
               tokens := some (.kvList [.kbody (atom "Item")]) }]⟩]⟩)).map renderTy :=
  ⟨List.mem_singleton.mpr rfl,
    (claim_C9 ⟨"S", [.fn ⟨"h", false,
      [mkRouteAttr "get" "/p",
       { pathSegs := ["utoipa_response"],
         tokens := some (.kvList [.kbody (atom "Item")]) }]⟩]⟩).2.2.2.1
      (atom "Item") (List.mem_singleton.mpr rfl)⟩

/-- Claim C4: a response annotation response = Envelope of four
distinct non generic arguments contributes exactly the schema list of
the four arguments, each once in first seen order, and never the
envelope type itself; and when a generic argument is itself generic
its own generic arguments are registered recursively as well. -/
theorem claim_C4 (na nb nc nd ne : String) (hnd : [na, nb, nc, nd].Nodup) (S nm : String) :
    unique_schemas ⟨S, [.fn ⟨nm, false,
        [mkRouteAttr "get" "/p", respAttr (Ty.mk ne [atom na, atom nb, atom nc, atom nd])]⟩]⟩
      = [atom na, atom nb, atom nc, atom nd] ∧
    Ty.mk ne [atom na, atom nb, atom nc, atom nd]
        ∉ unique_schemas ⟨S, [.fn ⟨nm, false,
            [mkRouteAttr "get" "/p", respAttr (Ty.mk ne [atom na, atom nb, atom nc, atom nd])]⟩]⟩ ∧
    (∀ (g h : String), extract_types_from_generic (Ty.mk ne [Ty.mk g [atom h]])
        = [atom h, Ty.mk g [atom h]]) := by
  simp only [List.nodup_cons, List.mem_cons, List.mem_singleton, List.not_mem_nil,
    or_false, not_or, List.nodup_nil, and_true] at hnd
  obtain ⟨⟨h12, h13, h14⟩, ⟨h23, h24⟩, h34, -⟩ := hnd
  have h21 : ¬ nb = na := fun h => h12 h.symm
  have h31 : ¬ nc = na := fun h => h13 h.symm
  have h32 : ¬ nc = nb := fun h => h23 h.symm
  have h41 : ¬ nd = na := fun h => h14 h.symm
  have h42 : ¬ nd = nb := fun h => h24 h.symm
  have h43 : ¬ nd = nc := fun h => h34 h.symm
  have hmain : unique_schemas ⟨S, [.fn ⟨nm, false,
      [mkRouteAttr "get" "/p", respAttr (Ty.mk ne [atom na, atom nb, atom nc, atom nd])]⟩]⟩
      = [atom na, atom nb, atom nc, atom nd] := by
    show dedupGo [] [atom na, atom nb, atom nc, atom nd]
        = [atom na, atom nb, atom nc, atom nd]
    simp [dedupGo, renderTy, atom, List.mem_cons, h21, h31, h32, h41, h42, h43]
  refine ⟨hmain, ?_, fun g h => rfl⟩
  rw [hmain]
  simp [atom]

/-- Claim C4 witness: the envelope rule applied at a concrete envelope
over four distinct argument types. -/
theorem claim_C4_witness :
    (["A", "B", "C", "D"] : List String).Nodup ∧
    unique_schemas ⟨"S", [.fn ⟨"h", false, [mkRouteAttr "get" "/p",
        respAttr (Ty.mk "Envelope" [atom "A", atom "B", atom "C", atom "D"])]⟩]⟩
      = [atom "A", atom "B", atom "C", atom "D"] :=
  ⟨by decide, (claim_C4 "A" "B" "C" "D" "Envelope" (by decide) "S" "h").1⟩

/-- Claim C5 witness: the status bounded key value rules applied at a
concrete annotation with status 404. -/
theorem claim_C5_witness :
    404 ≤ 65535 ∧
    extract_utoipa_response_attrs
        [{ pathSegs := ["utoipa_response"],
           tokens := some (.kvList [.kstatus 404, .kbody (atom "Error"),
                                    .kdescription "Missing"]) }]
      = [.triple 404 "Missing" (atom "Error")] :=
  ⟨by decide, claim_C5.2.2.2.2.1 404 (atom "Error") "Missing" [] (by decide)⟩

end Argon
